import Mathlib

/- Shallow embedding of the user-based collaborative-filtering core of
BoardGame-Scout: `build_user_similarity_matrix` and `recommend_games`
(src/BoardGame-Scout.py).

Ratings are embedded as a list of rows of the `ratings` relation.  Rational
numbers stand in for the floating-point ratings.  A cosine similarity value
is represented exactly by the pair `(dot, den)` consisting of the dot product
of the two mean-centered rating vectors and the product of their squared
norms; its real value is `dot / Real.sqrt den`.  Comparisons of similarity
values inside the sort are performed through the order-preserving rational
key `dot * |dot| / den` (the map `x ↦ x * |x|` is strictly monotone), which
keeps the similarity pipeline fully computable. -/

namespace BGScout

/-- One row of the `ratings` relation (`SELECT username, game_id, rating FROM ratings`). -/
structure Row where
  username : String
  game_id : Nat
  rating : ℚ
  deriving DecidableEq

/-- MIN_OVERLAP = 5: at least 5 co-rated games to trust similarity. -/
def MIN_OVERLAP : Nat := 5

/-- NEIGHBOURS = 25: top-k users whose taste we trust. -/
def NEIGHBOURS : Nat := 25

/-- RECOMMEND_COUNT = 20: default number of titles to show. -/
def RECOMMEND_COUNT : Nat := 20

/-- Distinct usernames appearing in the ratings relation. -/
def usersOf (r : List Row) : List String := (r.map (fun x => x.username)).dedup

/-- Distinct game ids appearing in the ratings relation. -/
def gamesOf (r : List Row) : List Nat := (r.map (fun x => x.game_id)).dedup

/-- The rows of a given user (`ratings[ratings.username == u]`). -/
def userRows (r : List Row) (u : String) : List Row :=
  r.filter (fun x => x.username == u)

/-- Per-user mean rating (`ratings.groupby("username")["rating"].mean()`). -/
def userMean (r : List Row) (u : String) : ℚ :=
  ((userRows r u).map (fun x => x.rating)).sum / ((userRows r u).length : ℚ)

/-- Lookup of the rating a user gave a game, if any (the pivot cell). -/
def ratingOf (r : List Row) (u : String) (g : Nat) : Option ℚ :=
  (r.find? (fun x => x.username == u && x.game_id == g)).map (fun x => x.rating)

/-- Mean-centered pivot entry: `rating - user_mean`, with missing cells
filled by 0 (`pivot(...).fillna(0)`). -/
def centered (r : List Row) (u : String) (g : Nat) : ℚ :=
  match ratingOf r u g with
  | some q => q - userMean r u
  | none => 0

/-- Dot product of the mean-centered rating vectors of two users. -/
def dotc (r : List Row) (u v : String) : ℚ :=
  ((gamesOf r).map (fun g => centered r u g * centered r v g)).sum

/-- Squared Euclidean norm of a user's mean-centered rating vector. -/
def normSq (r : List Row) (u : String) : ℚ :=
  ((gamesOf r).map (fun g => centered r u g * centered r u g)).sum

/-- Exact representation of `cosine_similarity` of two users: the pair of the
dot product and the product of the squared norms.  The real value of the
similarity is `simVal` of this pair. -/
def simv (r : List Row) (u v : String) : ℚ × ℚ :=
  (dotc r u v, normSq r u * normSq r v)

/-- Real value of a represented similarity: `dot / sqrt den`.  When a norm is
zero the dot product is zero as well and the value is 0, matching the
defined-zero convention of `sklearn.metrics.pairwise.cosine_similarity`. -/
noncomputable def simVal (p : ℚ × ℚ) : ℝ :=
  (p.1 : ℝ) / Real.sqrt (p.2 : ℝ)

/-- Computable rational sort key for a represented similarity: the image of
its real value under the strictly monotone map `x ↦ x * |x|` (for a positive
denominator `d`, `(a / sqrt d) * |a / sqrt d| = a * |a| / d`). -/
def keyQ (p : ℚ × ℚ) : ℚ :=
  if p.2 ≤ 0 then 0 else p.1 * |p.1| / p.2

/-- Number of games both users co-rated, counted over non-zero mean-centered
entries (`(pivot != 0) @ (pivot != 0).T`). -/
def overlapCount (r : List Row) (u v : String) : Nat :=
  ((gamesOf r).filter (fun g => centered r u g != 0 && centered r v g != 0)).length

/-- A row of the tall similarity DataFrame: columns `[username, other_user, similarity]`. -/
structure Edge where
  username : String
  other_user : String
  similarity : ℚ × ℚ
  deriving DecidableEq

/-- The similarity edge produced for the ordered user pair `(u, v)`. -/
def mkEdge (r : List Row) (u v : String) : Edge :=
  ⟨u, v, simv r u v⟩

/-- The sort relation of `sort_values(["username", "similarity"],
ascending=[True, False])`: primary key username ascending, secondary key
similarity descending. -/
def edgeR (e1 e2 : Edge) : Prop :=
  e1.username < e2.username ∨
    (e1.username = e2.username ∧ keyQ e2.similarity ≤ keyQ e1.similarity)

instance : DecidableRel edgeR := fun e1 e2 => by
  unfold edgeR
  infer_instance

instance : IsTotal Edge edgeR := by
  constructor
  intro e1 e2
  rcases lt_trichotomy e1.username e2.username with h | h | h
  · exact Or.inl (Or.inl h)
  · rcases le_total (keyQ e2.similarity) (keyQ e1.similarity) with hk | hk
    · exact Or.inl (Or.inr ⟨h, hk⟩)
    · exact Or.inr (Or.inr ⟨h.symm, hk⟩)
  · exact Or.inr (Or.inl h)

instance : IsTrans Edge edgeR := by
  constructor
  intro a b c hab hbc
  rcases hab with h1 | ⟨h1, k1⟩ <;> rcases hbc with h2 | ⟨h2, k2⟩
  · exact Or.inl (lt_trans h1 h2)
  · exact Or.inl (lt_of_lt_of_le h1 (le_of_eq h2))
  · exact Or.inl (lt_of_le_of_lt (le_of_eq h1) h2)
  · exact Or.inr ⟨h1.trans h2, le_trans k2 k1⟩

/-- Embedding of `build_user_similarity_matrix`: all ordered user pairs with
their cosine similarity, self-pairs dropped, pairs with overlap below
`MIN_OVERLAP` dropped, sorted by username ascending then similarity
descending. -/
def build_user_similarity_matrix (r : List Row) : List Edge :=
  let sim_df := (usersOf r).flatMap (fun u => (usersOf r).map (fun v => mkEdge r u v))
  let noSelf := sim_df.filter (fun e => e.username != e.other_user)
  let kept := noSelf.filter (fun e => decide (MIN_OVERLAP ≤ overlapCount r e.username e.other_user))
  List.insertionSort edgeR kept

/-- The neighbourhood of a target user: that user's similarity edges, top
`NEIGHBOURS` of them (`sim_df[sim_df.username == username].head(NEIGHBOURS)`). -/
def neighboursOf (r : List Row) (u : String) : List Edge :=
  ((build_user_similarity_matrix r).filter (fun e => e.username == u)).take NEIGHBOURS

/-- Games already rated by the target user. -/
def seenOf (r : List Row) (u : String) : List Nat :=
  (userRows r u).map (fun x => x.game_id)

/-- Ratings by the selected neighbours on games the target user has not seen
(`all_rates[all_rates.username.isin(neighbours.other_user) & ~all_rates.game_id.isin(seen)]`). -/
def neighRates (r : List Row) (u : String) : List Row :=
  r.filter (fun x =>
    ((neighboursOf r u).any (fun e => e.other_user == x.username)) &&
      !((seenOf r u).contains x.game_id))

/-- The merge of the neighbour ratings with the neighbour edges
(`neigh_rates.merge(neighbours, left_on="username", right_on="other_user")`):
each rating row is paired with the similarity of its author. -/
def mergedRates (r : List Row) (u : String) : List (Row × (ℚ × ℚ)) :=
  (neighRates r u).filterMap (fun x =>
    ((neighboursOf r u).find? (fun e => e.other_user == x.username)).map
      (fun e => (x, e.similarity)))

/-- Candidate games: the distinct game ids of the merged neighbour ratings
(the groups of `groupby("game_id")`). -/
def candidateGames (r : List Row) (u : String) : List Nat :=
  ((mergedRates r u).map (fun p => p.1.game_id)).dedup

/-- The merged neighbour-rating rows contributing to one candidate game. -/
def gameRates (r : List Row) (u : String) (g : Nat) : List (Row × (ℚ × ℚ)) :=
  (mergedRates r u).filter (fun p => p.1.game_id == g)

/-- Support count of a candidate: `count=("rating", "count")`. -/
def supportCount (r : List Row) (u : String) (g : Nat) : Nat :=
  (gameRates r u g).length

/-- Weighted sum of a candidate: `w_sum=("weighted", "sum")`, where
`weighted = rating * similarity`. -/
noncomputable def wSum (r : List Row) (u : String) (g : Nat) : ℝ :=
  ((gameRates r u g).map (fun p => (p.1.rating : ℝ) * simVal p.2)).sum

/-- Similarity sum of a candidate: `sim_sum=("similarity", "sum")`. -/
noncomputable def simSum (r : List Row) (u : String) (g : Nat) : ℝ :=
  ((gameRates r u g).map (fun p => simVal p.2)).sum

/-- Predicted rating: `recs["pred"] = recs["w_sum"] / recs["sim_sum"]`,
with no guard on the denominator. -/
noncomputable def predRating (r : List Row) (u : String) (g : Nat) : ℝ :=
  wSum r u g / simSum r u g

/-- Candidates surviving the support filter: `recs[recs["count"] >= 3]`. -/
def recsFiltered (r : List Row) (u : String) : List Nat :=
  (candidateGames r u).filter (fun g => decide (3 ≤ supportCount r u g))

/-- The surviving candidates ranked by predicted rating descending
(`recs.sort_values("pred", ascending=False)`). -/
noncomputable def recsSorted (r : List Row) (u : String) : List Nat :=
  @List.insertionSort Nat (fun g1 g2 => predRating r u g2 ≤ predRating r u g1)
    (fun _ _ => Classical.propDecidable _) (recsFiltered r u)

/-- The ranked candidates truncated to the requested count (`.head(n)`). -/
noncomputable def recsTop (r : List Row) (u : String) (n : Nat) : List Nat :=
  (recsSorted r u).take n

/-- Title lookup in the `games` store; the enrichment join is a left join,
so a missing entry yields `none` rather than dropping the row. -/
def titleOf (gt : List (Nat × String)) (g : Nat) : Option String :=
  (gt.find? (fun x => x.1 == g)).map (fun x => x.2)

/-- The community average rating of a game
(`SELECT game_id, AVG(rating) avg_greek FROM ratings GROUP BY game_id`),
`none` when the game has no ratings at all (left join). -/
def greekAvgOf (r : List Row) (g : Nat) : Option ℚ :=
  let l := r.filter (fun x => x.game_id == g)
  if l = [] then none
  else some ((l.map (fun x => x.rating)).sum / (l.length : ℚ))

/-- Rounding half to even at the given scale, the rounding used by
`DataFrame.round(2)` (numpy round-half-even), idealized over the rationals. -/
def roundHalfEven (x : ℚ) : ℤ :=
  let f := Int.floor x
  let fr := x - (f : ℚ)
  if fr < 1 / 2 then f
  else if 1 / 2 < fr then f + 1
  else if f % 2 = 0 then f else f + 1

/-- Rounding to two decimal places (`round(2)`). -/
def round2 (q : ℚ) : ℚ :=
  (roundHalfEven (q * 100) : ℚ) / 100

/-- Separator used to join the top neighbour names in the reason string. -/
def commaSep : String := ", "

/-- The textual reason attached to every recommendation row. -/
noncomputable def reasonOf (r : List Row) (u : String) (n : Nat) : String :=
  "Loved by " ++ toString (recsTop r u n).length ++
    " Greek users most similar to you (top neighbours: " ++
    String.intercalate commaSep
      ((((neighboursOf r u).take 5).map (fun e => e.other_user)).take 3) ++ ")"

/-- One output row of the recommender: columns
`[game_id, title, predicted_rating, avg_greek, reason]`. -/
structure Recommendation where
  game_id : Nat
  title : Option String
  predicted_rating : ℝ
  avg_greek : Option ℚ
  reason : String

/-- Embedding of `recommend_games`: recommendations for a single username
from the ratings relation `r` and the games store `gt`. -/
noncomputable def recommend_games (r : List Row) (gt : List (Nat × String))
    (username : String) (n : Nat) : List Recommendation :=
  if neighboursOf r username = [] then []
  else
    (recsTop r username n).map (fun g =>
      ⟨g, titleOf gt g, predRating r username g,
        (greekAvgOf r g).map round2, reasonOf r username n⟩)

/-! ### Concrete instances -/

/-- Example username of the recommendation target. -/
def uT : String := "t"

/-- Example username of the first neighbour. -/
def uA : String := "a"

/-- Example username of the second neighbour. -/
def uB : String := "b"

/-- Example username of the third neighbour. -/
def uC : String := "c"

/-- Concrete ratings relation exhibiting a degenerate aggregate similarity.
Users `t`, `a`, `b`, `c` all have mean rating 6.  On the five shared games
the mean-centered vectors are `t, a ↦ (1,1,1,1,-4)`, `b ↦ (-1,-1,-1,-1,4)`
and `c ↦ (1,1,1,1,1)`, so `sim(t,a) = 1`, `sim(t,b) = -1`, `sim(t,c) = 0`
and every pair co-rates 5 games.  Game 100 is rated by the three neighbours
but not by `t`, and the similarity sum of its three contributors is exactly
`1 + (-1) + 0 = 0`. -/
def exampleRatings : List Row :=
  [⟨uT, 1, 7⟩, ⟨uT, 2, 7⟩, ⟨uT, 3, 7⟩, ⟨uT, 4, 7⟩, ⟨uT, 5, 2⟩,
   ⟨uA, 1, 7⟩, ⟨uA, 2, 7⟩, ⟨uA, 3, 7⟩, ⟨uA, 4, 7⟩, ⟨uA, 5, 2⟩, ⟨uA, 100, 6⟩,
   ⟨uB, 1, 5⟩, ⟨uB, 2, 5⟩, ⟨uB, 3, 5⟩, ⟨uB, 4, 5⟩, ⟨uB, 5, 10⟩, ⟨uB, 100, 6⟩,
   ⟨uC, 1, 7⟩, ⟨uC, 2, 7⟩, ⟨uC, 3, 7⟩, ⟨uC, 4, 7⟩, ⟨uC, 5, 7⟩, ⟨uC, 100, 1⟩]

/-- Ratings relation with a single distinct user. -/
def oneUserRatings : List Row := [⟨uA, 1, 7⟩]

/-! ### Structure of the similarity edge list -/

@[simp] lemma mkEdge_username (r : List Row) (u v : String) :
    (mkEdge r u v).username = u := rfl

@[simp] lemma mkEdge_other_user (r : List Row) (u v : String) :
    (mkEdge r u v).other_user = v := rfl

@[simp] lemma mkEdge_similarity (r : List Row) (u v : String) :
    (mkEdge r u v).similarity = simv r u v := rfl

lemma mem_build_iff (r : List Row) (e : Edge) :
    e ∈ build_user_similarity_matrix r ↔
      ∃ u v, u ∈ usersOf r ∧ v ∈ usersOf r ∧ u ≠ v ∧
        MIN_OVERLAP ≤ overlapCount r u v ∧ e = mkEdge r u v := by
  simp only [build_user_similarity_matrix, List.mem_insertionSort, List.mem_filter,
    List.mem_flatMap, List.mem_map, bne_iff_ne, decide_eq_true_eq]
  constructor
  · rintro ⟨⟨⟨u, hu, v, hv, rfl⟩, hne⟩, hov⟩
    exact ⟨u, v, hu, hv, hne, hov, rfl⟩
  · rintro ⟨u, v, hu, hv, hne, hov, rfl⟩
    exact ⟨⟨⟨u, hu, v, hv, rfl⟩, hne⟩, hov⟩

lemma normSq_pos (r : List Row) (u : String)
    (h : ∃ g ∈ gamesOf r, centered r u g ≠ 0) : 0 < normSq r u := by
  obtain ⟨g, hg, hne⟩ := h
  have hterm : 0 < centered r u g * centered r u g := mul_self_pos.mpr hne
  have hmem : centered r u g * centered r u g ∈
      (gamesOf r).map (fun g => centered r u g * centered r u g) :=
    List.mem_map_of_mem _ hg
  have hnn : ∀ x ∈ (gamesOf r).map (fun g => centered r u g * centered r u g), 0 ≤ x := by
    intro x hx
    obtain ⟨g', _, rfl⟩ := List.mem_map.mp hx
    exact mul_self_nonneg _
  exact lt_of_lt_of_le hterm (List.single_le_sum hnn _ hmem)

lemma overlap_witness (r : List Row) (u v : String)
    (hov : 0 < overlapCount r u v) :
    ∃ g ∈ gamesOf r, centered r u g ≠ 0 ∧ centered r v g ≠ 0 := by
  rw [overlapCount, List.length_pos] at hov
  obtain ⟨g, hg⟩ := List.exists_mem_of_ne_nil _ hov
  rw [List.mem_filter, Bool.and_eq_true, bne_iff_ne, bne_iff_ne] at hg
  exact ⟨g, hg.1, hg.2⟩

lemma simv_den_pos (r : List Row) (u v : String)
    (hov : MIN_OVERLAP ≤ overlapCount r u v) : 0 < (simv r u v).2 := by
  have hpos : 0 < overlapCount r u v := lt_of_lt_of_le (by norm_num [MIN_OVERLAP]) hov
  obtain ⟨g, hg, hu, hv⟩ := overlap_witness r u v hpos
  exact mul_pos (normSq_pos r u ⟨g, hg, hu⟩) (normSq_pos r v ⟨g, hg, hv⟩)

lemma den_pos_of_mem (r : List Row) {e : Edge}
    (he : e ∈ build_user_similarity_matrix r) : 0 < e.similarity.2 := by
  obtain ⟨u, v, _, _, _, hov, rfl⟩ := (mem_build_iff r e).mp he
  simpa using simv_den_pos r u v hov

/-! ### Symmetry -/

lemma dotc_comm (r : List Row) (u v : String) : dotc r u v = dotc r v u := by
  unfold dotc
  exact congrArg List.sum (List.map_congr_left (fun g _ => mul_comm _ _))

lemma simv_symm (r : List Row) (u v : String) : simv r u v = simv r v u := by
  unfold simv
  rw [dotc_comm, mul_comm]

lemma overlap_symm (r : List Row) (u v : String) :
    overlapCount r u v = overlapCount r v u := by
  unfold overlapCount
  exact congrArg List.length (List.filter_congr (fun g _ => Bool.and_comm _ _))

/-! ### The similarity order and its rational key -/

lemma mulAbs_strictMono : StrictMono (fun x : ℝ => x * |x|) := by
  intro x y h
  show x * |x| < y * |y|
  rcases le_or_lt y 0 with hy | hy
  · have hx : x < 0 := lt_of_lt_of_le h hy
    rw [abs_of_nonpos (le_of_lt hx), abs_of_nonpos hy]
    nlinarith
  · rcases le_or_lt x 0 with hx | hx
    · rw [abs_of_nonpos hx, abs_of_pos hy]
      nlinarith
    · rw [abs_of_pos hx, abs_of_pos hy]
      nlinarith

lemma simVal_mul_abs (a d : ℚ) (hd : 0 < d) :
    simVal (a, d) * |simVal (a, d)| = ((a * |a| / d : ℚ) : ℝ) := by
  have hd' : (0 : ℝ) < (d : ℝ) := by exact_mod_cast hd
  unfold simVal
  push_cast
  rw [abs_div, abs_of_nonneg (Real.sqrt_nonneg _), div_mul_div_comm,
    Real.mul_self_sqrt (le_of_lt hd')]

lemma simVal_le_iff (p q : ℚ × ℚ) (hp : 0 < p.2) (hq : 0 < q.2) :
    simVal q ≤ simVal p ↔ keyQ q ≤ keyQ p := by
  obtain ⟨a, d⟩ := p
  obtain ⟨b, e⟩ := q
  have hd : 0 < d := hp
  have he : 0 < e := hq
  calc simVal (b, e) ≤ simVal (a, d)
      ↔ simVal (b, e) * |simVal (b, e)| ≤ simVal (a, d) * |simVal (a, d)| :=
        mulAbs_strictMono.le_iff_le.symm
    _ ↔ ((b * |b| / e : ℚ) : ℝ) ≤ ((a * |a| / d : ℚ) : ℝ) := by
        rw [simVal_mul_abs a d hd, simVal_mul_abs b e he]
    _ ↔ (b * |b| / e : ℚ) ≤ (a * |a| / d : ℚ) := Rat.cast_le
    _ ↔ keyQ (b, e) ≤ keyQ (a, d) := by
        rw [keyQ, keyQ]
        rw [if_neg (not_le.mpr hd), if_neg (not_le.mpr he)]

/-! ### Sortedness of the edge list -/

lemma build_sorted (r : List Row) :
    List.Sorted edgeR (build_user_similarity_matrix r) := by
  unfold build_user_similarity_matrix
  exact List.sorted_insertionSort edgeR _

/-! ### Evaluation of the concrete instances -/

set_option maxRecDepth 100000 in
lemma exNeighbours : neighboursOf exampleRatings uT =
    [⟨uT, uA, (20, 400)⟩, ⟨uT, uC, (0, 600)⟩, ⟨uT, uB, (-20, 400)⟩] := by
  with_unfolding_all decide

set_option maxRecDepth 100000 in
lemma exMerged : mergedRates exampleRatings uT =
    [(⟨uA, 100, 6⟩, (20, 400)), (⟨uB, 100, 6⟩, (-20, 400)),
     (⟨uC, 100, 1⟩, (0, 600))] := by
  with_unfolding_all decide

lemma exGameRates : gameRates exampleRatings uT 100 =
    [(⟨uA, 100, 6⟩, (20, 400)), (⟨uB, 100, 6⟩, (-20, 400)),
     (⟨uC, 100, 1⟩, (0, 600))] := by
  rw [gameRates, exMerged]
  rfl

lemma exCandidates : candidateGames exampleRatings uT = [100] := by
  rw [candidateGames, exMerged]
  rfl

lemma exRecsFiltered : recsFiltered exampleRatings uT = [100] := by
  rw [recsFiltered, exCandidates]
  have h : supportCount exampleRatings uT 100 = 3 := by
    rw [supportCount, exGameRates]
    rfl
  simp [h]

lemma exRecsSorted : recsSorted exampleRatings uT = [100] := by
  rw [recsSorted, exRecsFiltered]
  rfl

lemma exSimSum : simSum exampleRatings uT 100 = 0 := by
  rw [simSum, exGameRates]
  have h400 : Real.sqrt (400 : ℝ) = 20 := by
    rw [show (400 : ℝ) = 20 ^ 2 by norm_num]
    exact Real.sqrt_sq (by norm_num)
  simp only [List.map_cons, List.map_nil, List.sum_cons, List.sum_nil, simVal]
  push_cast
  rw [h400]
  norm_num

/-! ### Structure of the recommendation pipeline -/

lemma mem_recsFiltered_iff (r : List Row) (u : String) (g : Nat) :
    g ∈ recsFiltered r u ↔ g ∈ candidateGames r u ∧ 3 ≤ supportCount r u g := by
  simp [recsFiltered, List.mem_filter]

lemma mem_recsSorted_iff (r : List Row) (u : String) (g : Nat) :
    g ∈ recsSorted r u ↔ g ∈ recsFiltered r u := by
  unfold recsSorted
  exact List.mem_insertionSort _

lemma mem_recsTop (r : List Row) (u : String) (n g : Nat)
    (h : g ∈ recsTop r u n) : g ∈ recsFiltered r u := by
  unfold recsTop at h
  exact (mem_recsSorted_iff r u g).mp (List.mem_of_mem_take h)

lemma candidate_not_seen (r : List Row) (u : String) (g : Nat)
    (h : g ∈ candidateGames r u) : g ∉ seenOf r u := by
  rw [candidateGames, List.mem_dedup, List.mem_map] at h
  obtain ⟨p, hp, rfl⟩ := h
  rw [mergedRates, List.mem_filterMap] at hp
  obtain ⟨x, hx, hmap⟩ := hp
  obtain ⟨e0, _, rfl⟩ := Option.map_eq_some'.mp hmap
  rw [neighRates, List.mem_filter] at hx
  have hcond := hx.2
  simp only [Bool.and_eq_true, Bool.not_eq_true'] at hcond
  simpa using hcond.2

/-! ### The claims -/

/-- C2: if the ratings relation is empty, or contains ratings from fewer
than 2 distinct users, the similarity builder returns an empty edge set. -/
theorem C2_empty_or_single_user (r : List Row)
    (h : r = [] ∨ (usersOf r).length < 2) :
    build_user_similarity_matrix r = [] := by
  have hlen : (usersOf r).length < 2 := by
    rcases h with rfl | h
    · simp [usersOf]
    · exact h
  cases husers : usersOf r with
  | nil => simp [build_user_similarity_matrix, husers]
  | cons u tail =>
    cases htail : tail with
    | nil =>
      rw [htail] at husers
      simp [build_user_similarity_matrix, husers]
    | cons v rest =>
      rw [husers, htail] at hlen
      simp only [List.length_cons] at hlen
      omega

/-- Witness for C2: the empty ratings relation has an empty edge set. -/
theorem C2_witness :
    (([] : List Row) = [] ∨ (usersOf []).length < 2) ∧
      build_user_similarity_matrix [] = [] :=
  ⟨Or.inl rfl, C2_empty_or_single_user [] (Or.inl rfl)⟩

/-- C6: every emitted similarity edge joins two distinct users that co-rated
at least `MIN_OVERLAP` (5) games, co-rating being counted over non-zero
mean-centered entries. -/
theorem C6_edge_invariant (r : List Row) :
    (build_user_similarity_matrix r).Forall
      (fun e => e.username ≠ e.other_user ∧
        MIN_OVERLAP ≤ overlapCount r e.username e.other_user) := by
  rw [List.forall_iff_forall_mem]
  intro e he
  obtain ⟨u, v, _, _, hne, hov, rfl⟩ := (mem_build_iff r e).mp he
  exact ⟨hne, hov⟩

/-- C7: the similarity value is symmetric in its two users, and whenever an
edge is emitted, the reversed edge is emitted with the identical similarity. -/
theorem C7_symmetric (r : List Row) :
    (∀ u v, simVal (simv r u v) = simVal (simv r v u)) ∧
      (build_user_similarity_matrix r).Forall
        (fun e => Edge.mk e.other_user e.username e.similarity ∈
          build_user_similarity_matrix r) := by
  constructor
  · intro u v
    rw [simv_symm]
  · rw [List.forall_iff_forall_mem]
    intro e he
    obtain ⟨u, v, hu, hv, hne, hov, rfl⟩ := (mem_build_iff r e).mp he
    refine (mem_build_iff r _).mpr ⟨v, u, hv, hu, hne.symm, ?_, ?_⟩
    · rw [overlap_symm r v u]
      exact hov
    · simp [mkEdge, simv_symm r u v]

/-- C8: the edge list is sorted with primary key username ascending and
secondary key the real similarity value descending. -/
theorem C8_sort_order (r : List Row) :
    List.Pairwise
      (fun e1 e2 => e1.username < e2.username ∨
        (e1.username = e2.username ∧
          simVal e2.similarity ≤ simVal e1.similarity))
      (build_user_similarity_matrix r) := by
  have hs := build_sorted r
  exact hs.imp_of_mem (fun h1 h2 hr => by
    rcases hr with h | ⟨heq, hk⟩
    · exact Or.inl h
    · exact Or.inr ⟨heq,
        (simVal_le_iff _ _ (den_pos_of_mem r h1) (den_pos_of_mem r h2)).mpr hk⟩)

/-- C9: a target user without similarity edges receives an empty
recommendation sequence, not an error. -/
theorem C9_cold_start_empty (r : List Row) (gt : List (Nat × String))
    (u : String) (n : Nat)
    (h : (build_user_similarity_matrix r).filter (fun e => e.username == u) = []) :
    recommend_games r gt u n = [] := by
  have hn : neighboursOf r u = [] := by
    rw [neighboursOf, h]
    rfl
  rw [recommend_games, if_pos hn]

/-- Witness for C9: in a one-user relation the target `t` has no edges and
receives the empty recommendation list. -/
theorem C9_witness :
    ((build_user_similarity_matrix oneUserRatings).filter
        (fun e => e.username == uT) = []) ∧
      recommend_games oneUserRatings [] uT 5 = [] :=
  ⟨by with_unfolding_all decide,
   C9_cold_start_empty oneUserRatings [] uT 5 (by with_unfolding_all decide)⟩

/-- C4: no game recommended to a user is in that user's seen set. -/
theorem C4_seen_never_recommended (r : List Row) (gt : List (Nat × String))
    (u : String) (n : Nat) :
    (recommend_games r gt u n).Forall (fun row => row.game_id ∉ seenOf r u) := by
  rw [List.forall_iff_forall_mem]
  intro row hrow
  rw [recommend_games] at hrow
  split at hrow
  · simp at hrow
  · obtain ⟨g, hg, rfl⟩ := List.mem_map.mp hrow
    exact candidate_not_seen r u g
      ((mem_recsFiltered_iff r u g).mp (mem_recsTop r u n g hg)).1

/-- C5: every recommended game was rated by at least 3 of the selected
neighbours. -/
theorem C5_min_support (r : List Row) (gt : List (Nat × String))
    (u : String) (n : Nat) :
    (recommend_games r gt u n).Forall
      (fun row => 3 ≤ supportCount r u row.game_id) := by
  rw [List.forall_iff_forall_mem]
  intro row hrow
  rw [recommend_games] at hrow
  split at hrow
  · simp at hrow
  · obtain ⟨g, hg, rfl⟩ := List.mem_map.mp hrow
    exact ((mem_recsFiltered_iff r u g).mp (mem_recsTop r u n g hg)).2

/-- C3: for a positive requested count n, recommend returns at most n rows,
ordered by predicted rating descending. -/
theorem C3_bounded_and_ranked (r : List Row) (gt : List (Nat × String))
    (u : String) (n : Nat) (_hn : 0 < n) :
    (recommend_games r gt u n).length ≤ n ∧
      List.Pairwise (fun a b => b.predicted_rating ≤ a.predicted_rating)
        (recommend_games r gt u n) := by
  rw [recommend_games]
  split
  · simp
  · constructor
    · rw [List.length_map, recsTop, List.length_take]
      exact min_le_left _ _
    · rw [List.pairwise_map]
      have hs : List.Pairwise
          (fun g1 g2 => predRating r u g2 ≤ predRating r u g1)
          (recsSorted r u) := by
        unfold recsSorted
        exact @List.sorted_insertionSort Nat
          (fun g1 g2 => predRating r u g2 ≤ predRating r u g1)
          (fun _ _ => Classical.propDecidable _)
          ⟨fun a b => le_total _ _⟩ ⟨fun _ _ _ h1 h2 => le_trans h2 h1⟩
          (recsFiltered r u)
      exact List.Pairwise.sublist (List.take_sublist n _) hs

/-- Witness for C3 at the empty relation and n = 1. -/
theorem C3_witness :
    0 < 1 ∧ ((recommend_games [] [] uT 1).length ≤ 1 ∧
      List.Pairwise (fun a b => b.predicted_rating ≤ a.predicted_rating)
        (recommend_games [] [] uT 1)) :=
  ⟨Nat.one_pos, C3_bounded_and_ranked [] [] uT 1 Nat.one_pos⟩

/-- C10: title enrichment is a left join: the recommended game ids do not
depend on the games store, and every row's title is the (possibly missing)
lookup of its game id in the games store. -/
theorem C10_title_left_join (r : List Row) (gt : List (Nat × String))
    (u : String) (n : Nat) :
    (recommend_games r gt u n).map (fun row => row.game_id) =
        (recommend_games r [] u n).map (fun row => row.game_id) ∧
      (recommend_games r gt u n).Forall
        (fun row => row.title = titleOf gt row.game_id) := by
  constructor
  · rw [recommend_games, recommend_games]
    by_cases hc : neighboursOf r u = []
    · rw [if_pos hc, if_pos hc]
    · rw [if_neg hc, if_neg hc, List.map_map, List.map_map]
      rfl
  · rw [List.forall_iff_forall_mem]
    intro row hrow
    rw [recommend_games] at hrow
    split at hrow
    · simp at hrow
    · obtain ⟨g, hg, rfl⟩ := List.mem_map.mp hrow
      rfl

/-- C1 (amended): the prediction step applies no guard to the similarity-sum
denominator: every candidate that passes the support-count filter stays in
the ranked candidate list, whatever its aggregate similarity sum. -/
theorem C1_no_denominator_guard (r : List Row) (u : String) (g : Nat)
    (h : g ∈ recsFiltered r u) : g ∈ recsSorted r u :=
  (mem_recsSorted_iff r u g).mpr h

/-- Witness for C1 (amended) at the concrete relation whose candidate game
100 has aggregate similarity sum 0. -/
theorem C1_witness :
    100 ∈ recsFiltered exampleRatings uT ∧
      100 ∈ recsSorted exampleRatings uT :=
  ⟨by rw [exRecsFiltered]; exact List.mem_singleton_self 100,
   C1_no_denominator_guard exampleRatings uT 100
     (by rw [exRecsFiltered]; exact List.mem_singleton_self 100)⟩

/-- C1 (counterexample): in `exampleRatings` the candidate game 100 has
aggregate neighbour similarity sum exactly 0, yet it appears in the output of
recommend for user `t`; the claimed guard (absence of such candidates from
the output) does not hold. -/
theorem C1_counterexample :
    simSum exampleRatings uT 100 = 0 ∧
      100 ∈ (recommend_games exampleRatings [] uT 20).map
        (fun row => row.game_id) := by
  refine ⟨exSimSum, ?_⟩
  rw [recommend_games, if_neg (by rw [exNeighbours]; simp)]
  rw [List.map_map, recsTop, exRecsSorted]
  simp

end BGScout
